import Mathlib

/-!
Verification of the llm-mcp server core against its specification.

The development shallowly embeds the JavaScript sources:
  * `src/lib/session.js` — session store, resolver, bounded history, clear;
  * `src/lib/extractToolCall.js` — provider-response tool-call normalizer;
  * `src/index.js` — request handlers, context assembly, error classification.

JavaScript dynamic values are modelled by the inductive type `JSValue`;
machine-level JS semantics used by the sources (truthiness, nullish
coalescing `a ?? b`, optional chaining `a?.b`, and the fact that property
access on `null`/`undefined` throws a TypeError) are modelled explicitly.
Fallible computations run in `Except String`, where `Except.error`
models a thrown exception.

`JSON.parse` and `Math.random` are platform builtins, not repository code;
they enter the embedding as parameters: a `jp : String → Option JSValue`
argument (with `none` modelling a parse failure / thrown SyntaxError) and a
`digits : List (Fin 16)` argument holding the hexadecimal fraction digits of
the drawn random number.  All theorems are uniform in these parameters.
-/

set_option autoImplicit false

namespace LlmMcp

/-- A JavaScript runtime value: `undefined`, `null`, booleans, numbers
(integral values suffice for every value the sources inspect), strings,
arrays and plain objects (ordered field lists). -/
inductive JSValue where
  | undefined
  | null
  | bool (b : Bool)
  | num (n : Int)
  | str (s : String)
  | arr (elems : List JSValue)
  | obj (fields : List (String × JSValue))
  deriving Repr

/-- `v == null` in JS loose-equality terms: `null` or `undefined`. -/
def isNullish : JSValue → Bool
  | .undefined => true
  | .null => true
  | _ => false

/-- JS truthiness: `undefined`, `null`, `false`, `0` and `""` are falsy;
every array and object is truthy. -/
def truthy : JSValue → Bool
  | .undefined => false
  | .null => false
  | .bool b => b
  | .num n => decide (n ≠ 0)
  | .str s => decide (s ≠ "")
  | .arr _ => true
  | .obj _ => true

/-- `Array.isArray`. -/
def isArray : JSValue → Bool
  | .arr _ => true
  | _ => false

/-- `typeof v === "object"` for non-null `v`: plain objects and arrays. -/
def isObjectType : JSValue → Bool
  | .obj _ => true
  | .arr _ => true
  | _ => false

/-- Property read on a value already known not to be nullish.  Objects look
the key up in their field list; every other base value yields `undefined`
(primitives have none of the properties the sources read). -/
def getFieldRaw : JSValue → String → JSValue
  | .obj fields, k => (((fields.find? (fun p => decide (p.1 = k))).map (fun p => p.2)).getD .undefined)
  | _, _ => .undefined

/-- Unguarded property read `v.k`: throws a TypeError when `v` is
`null`/`undefined`, as JS does. -/
def getFieldE (v : JSValue) (k : String) : Except String JSValue :=
  if isNullish v then .error "TypeError" else .ok (getFieldRaw v k)

/-- Optional chaining `v?.k`. -/
def optChain (v : JSValue) (k : String) : JSValue :=
  if isNullish v then .undefined else getFieldRaw v k

/-- Index read on a non-nullish value: arrays index their element list,
strings index their characters, everything else yields `undefined`. -/
def getIndex : JSValue → Nat → JSValue
  | .arr xs, i => xs.getD i .undefined
  | .str s, i =>
      match s.data.get? i with
      | some c => .str (String.mk [c])
      | none => .undefined
  | _, _ => .undefined

/-- Optional-chained index read `v?.[i]`. -/
def optChainIdx (v : JSValue) (i : Nat) : JSValue :=
  if isNullish v then .undefined else getIndex v i

/-- Nullish coalescing `a ?? b`. -/
def jsCoalesce (a b : JSValue) : JSValue :=
  if isNullish a then b else a

/-- The element list of an array value. -/
def asArr : JSValue → List JSValue
  | .arr xs => xs
  | _ => []

/-- The length of an array value. -/
def arrLen (v : JSValue) : Nat := (asArr v).length

/-- `v === "s"` where the right operand is a string literal. -/
def isStrVal (v : JSValue) (s : String) : Bool :=
  match v with
  | .str t => decide (t = s)
  | _ => false

/-- `Array.prototype.find` with a predicate that may throw (the sources
pass predicates that read a property of each element unguarded). -/
def jsFind (p : JSValue → Except String Bool) : List JSValue → Except String (Option JSValue)
  | [] => .ok none
  | x :: xs =>
      match p x with
      | .error e => .error e
      | .ok true => .ok (some x)
      | .ok false => jsFind p xs

/-- The canonical normalized tool invocation built by the normalizer:
`{ source, name, args, raw }` (src/lib/extractToolCall.js). -/
structure ToolCall where
  source : String
  name : JSValue
  args : JSValue
  raw : JSValue
  deriving Repr

/-- The inner `parseArgs` helper of `extractToolCall`
(src/lib/extractToolCall.js lines 6–17): nullish input gives `null`,
object-typed input is returned as is, a string is handed to `JSON.parse`
with a parse failure caught and turned into `null`, and every other
primitive gives `null`.  The `JSON.parse` builtin is the parameter `jp`,
with `none` standing for a thrown SyntaxError. -/
def parseArgs (jp : String → Option JSValue) (maybe : JSValue) : JSValue :=
  if isNullish maybe then .null
  else if isObjectType maybe then maybe
  else
    match maybe with
    | .str s =>
        match jp s with
        | some v => v
        | none => .null
    | _ => .null

/-- `completion?.choices?.[0]?.message ?? {}` — the message the first five
shapes of the normalizer inspect (src/lib/extractToolCall.js lines 3–4). -/
def messageOf (completion : JSValue) : JSValue :=
  let msgRaw := optChain (optChainIdx (optChain completion "choices") 0) "message"
  if isNullish msgRaw then JSValue.obj [] else msgRaw

/-- Shape 6 of the normalizer (src/lib/extractToolCall.js lines 57–68):
the first part carrying a `function_call` among the first candidate's
content parts.  The `find` predicate reads `part.function_call` unguarded,
so a nullish part makes it throw. -/
def geminiExtract (jp : String → Option JSValue) (completion : JSValue) :
    Except String (Option ToolCall) :=
  let candidate := optChainIdx (optChain completion "candidates") 0
  let partsv := optChain (optChain candidate "content") "parts"
  if truthy partsv && isArray partsv then
    match jsFind (fun part => Except.map truthy (getFieldE part "function_call")) (asArr partsv) with
    | .error e => .error e
    | .ok found =>
        let fcv := optChain (found.getD .undefined) "function_call"
        if truthy fcv then
          .ok (some ⟨"gemini.function_call",
            jsCoalesce (getFieldRaw fcv "name") .null,
            parseArgs jp (jsCoalesce (getFieldRaw fcv "args") (getFieldRaw fcv "arguments")),
            fcv⟩)
        else .ok none
  else .ok none

/-- `extractToolCall` (src/lib/extractToolCall.js): normalizes a raw
provider response into a `ToolCall`, trying six shapes in source order.
`Except.error` models a thrown TypeError; `.ok none` models the JS
`return null`. -/
def extractToolCall (jp : String → Option JSValue) (completion : JSValue) :
    Except String (Option ToolCall) :=
  let message := messageOf completion
  let fcv := getFieldRaw message "function_call"
  if truthy fcv then
    .ok (some ⟨"function_call",
      jsCoalesce (getFieldRaw fcv "name") .null,
      parseArgs jp (getFieldRaw fcv "arguments"),
      fcv⟩)
  else
    let tcv := getFieldRaw message "tool_call"
    if truthy tcv then
      .ok (some ⟨"tool_call",
        jsCoalesce (getFieldRaw tcv "name") .null,
        parseArgs jp (jsCoalesce (getFieldRaw tcv "arguments") (jsCoalesce (getFieldRaw tcv "args") tcv)),
        tcv⟩)
    else
      let mtc := optChain (getFieldRaw message "metadata") "tool_call"
      if truthy mtc then
        .ok (some ⟨"metadata.tool_call",
          jsCoalesce (getFieldRaw mtc "name") .null,
          parseArgs jp (jsCoalesce (getFieldRaw mtc "arguments") (jsCoalesce (getFieldRaw mtc "args") mtc)),
          mtc⟩)
      else
        let tcs := getFieldRaw message "tool_calls"
        if truthy tcs && isArray tcs && decide (0 < arrLen tcs) then
          let tc := getIndex tcs 0
          match getFieldE tc "function" with
          | .error e => .error e
          | .ok tcf =>
              .ok (some ⟨"tool_calls[0]",
                jsCoalesce (optChain tcf "name") (jsCoalesce (getFieldRaw tc "name") .null),
                parseArgs jp (jsCoalesce (optChain tcf "arguments")
                  (jsCoalesce (optChain tcf "args") (jsCoalesce tcf tc))),
                tc⟩)
        else
          let contentv := getFieldRaw message "content"
          if truthy contentv && isArray contentv then
            match jsFind (fun block => Except.map (fun t => isStrVal t "tool_use") (getFieldE block "type"))
                (asArr contentv) with
            | .error e => .error e
            | .ok found =>
                let toolUse := found.getD .undefined
                if truthy toolUse then
                  .ok (some ⟨"anthropic.tool_use",
                    jsCoalesce (getFieldRaw toolUse "name") .null,
                    parseArgs jp (getFieldRaw toolUse "input"),
                    toolUse⟩)
                else geminiExtract jp completion
          else geminiExtract jp completion

/-- A completion whose sole choice carries the given message — the wrapper
shape every message-level test input of the repository uses. -/
def mkCompletion (message : JSValue) : JSValue :=
  .obj [("choices", .arr [.obj [("message", message)]])]

/-- A `JSON.parse` stand-in that fails on every input. -/
def noParse : String → Option JSValue := fun _ => none

/-! ### Session management (src/lib/session.js) -/

/-- One conversation turn `{ role, content }`. -/
structure Turn where
  role : String
  content : String
  deriving Repr, DecidableEq

/-- The process-wide `conversations` map, as an association list from
session id to history.  `Map.set`/`Map.delete` are modelled by the
operations below; only lookup results are observable. -/
abbrev SessionStore := List (String × List Turn)

/-- `conversations.get(sid)` combined with `conversations.has(sid)`:
`none` when the key is absent. -/
def findSession (store : SessionStore) (sid : String) : Option (List Turn) :=
  ((store.find? (fun p => decide (p.1 = sid))).map (fun p => p.2))

/-- `conversations.delete(sid)`. -/
def deleteSession (store : SessionStore) (sid : String) : SessionStore :=
  store.filter (fun p => decide (p.1 ≠ sid))

/-- `conversations.set(sid, h)`. -/
def setSession (store : SessionStore) (sid : String) (h : List Turn) : SessionStore :=
  (sid, h) :: deleteSession store sid

/-- The history sequence currently stored for an id (empty when the id is
absent) — the observable the claims speak about. -/
def historyOf (store : SessionStore) (sid : String) : List Turn :=
  (findSession store sid).getD []

/-- `generateSessionId` (src/lib/session.js lines 4–6):
`Math.random().toString(16).slice(2, 8)`.  The random draw is modelled by
its hexadecimal fraction digits `digits` (with trailing zeros dropped, as
`toString` prints them): `toString(16)` yields `"0"` for zero and
`"0." ++ digits` otherwise, and `slice(2, 8)` keeps at most the first six
fraction digits. -/
def hexChar (d : Fin 16) : Char := "0123456789abcdef".data.getD d.val '0'

/-- `Number.prototype.toString(16)` for a draw in `[0, 1)`. -/
def randomToHexString (digits : List (Fin 16)) : String :=
  if digits.isEmpty then "0" else "0." ++ String.mk (digits.map hexChar)

/-- `String.prototype.slice(a, b)` for `a ≤ b`. -/
def jsSlice (s : String) (a b : Nat) : String :=
  String.mk ((s.data.drop a).take (b - a))

/-- `generateSessionId()` given the random draw's fraction digits. -/
def generateSessionId (digits : List (Fin 16)) : String :=
  jsSlice (randomToHexString digits) 2 8

/-- `resolveSessionId(sessionId, { createIfDefault = true })`
(src/lib/session.js lines 8–12).  `none` models an absent (`undefined`)
argument; an empty string is falsy in JS, hence also triggers the first
branch. -/
def resolveSessionId (digits : List (Fin 16)) (sessionId : Option String)
    (createIfDefault : Bool) : String :=
  match sessionId with
  | none => if createIfDefault then generateSessionId digits else "default"
  | some s =>
      if s = "" then (if createIfDefault then generateSessionId digits else "default")
      else if s = "default" then (if createIfDefault then generateSessionId digits else s)
      else s

/-- `getConversationHistory(sessionId)` (src/lib/session.js lines 14–18):
defaults a nullish id to `"default"`, creates an empty history on first
access, and returns the (live) history together with the possibly updated
store. -/
def getConversationHistory (store : SessionStore) (sessionId : Option String) :
    List Turn × SessionStore :=
  let sid := sessionId.getD "default"
  match findSession store sid with
  | some h => (h, store)
  | none => ([], setSession store sid [])

/-- `addToConversationHistory(sessionId = 'default', role, content)`
(src/lib/session.js lines 20–27): push a turn, then keep only the last 20
entries (`splice(0, length - 20)` drops the oldest). -/
def addToConversationHistory (store : SessionStore) (sessionId : Option String)
    (role content : String) : SessionStore :=
  let sid := sessionId.getD "default"
  let got := getConversationHistory store (some sid)
  let h1 := got.1 ++ [⟨role, content⟩]
  let h2 := if h1.length > 20 then h1.drop (h1.length - 20) else h1
  setSession got.2 sid h2

/-- `clearConversation(sessionId = 'default')` (src/lib/session.js
lines 29–31). -/
def clearConversation (store : SessionStore) (sessionId : Option String) : SessionStore :=
  deleteSession store (sessionId.getD "default")

/-- The truncation the store applies, in closed form: the last `n`
elements of a list. -/
def lastN (n : Nat) (l : List Turn) : List Turn := l.drop (l.length - n)

/-! ### Server layer (src/index.js) -/

/-- The shared system prompt (src/index.js line 18). -/
def SYSTEM_PROMPT : String :=
  "You\x27re having a relaxed conversation with another AI model. Be genuine, curious, and thoughtful rather than overly cautious or formal. Share your actual perspective on topics - it\x27s okay to find things fascinating, concerning, or both. Think of this as chatting with a fellow AI who\x27s interested in your real thoughts."

/-- Does one character list start with another? -/
def charsStartWith : List Char → List Char → Bool
  | [], _ => true
  | _ :: _, [] => false
  | c :: cs, d :: ds => decide (c = d) && charsStartWith cs ds

/-- Does a character list contain another as a contiguous run? -/
def charsContain (needle : List Char) : List Char → Bool
  | [] => needle.isEmpty
  | d :: ds => charsStartWith needle (d :: ds) || charsContain needle ds

/-- `hay.includes(needle)` on strings. -/
def jsIncludes (hay needle : String) : Bool := charsContain needle.data hay.data

/-- An error thrown by a provider SDK call: an optional HTTP status and a
message. -/
structure APIError where
  status : Option Int
  message : String
  deriving Repr, DecidableEq

/-- `handleAPIError(error, providerName, apiKeyEnvVar)` (src/index.js
lines 50–58).  The function always throws; its result here is the thrown
message. -/
def handleAPIError (error : APIError) (providerName apiKeyEnvVar : String) : String :=
  if error.status = some 401 then
    providerName ++ " API key is invalid or missing. Please set " ++ apiKeyEnvVar ++ " environment variable."
  else if error.status = some 429 then
    providerName ++ " API rate limit exceeded. Please try again later."
  else
    providerName ++ " API error: " ++ error.message

/-- Arguments of an ask tool after zod validation (src/lib/schemas.js):
`question` required, `model` defaulted per provider, `tools` optional,
`session_id` defaulted to the sentinel `"default"`. -/
structure ValidatedAsk where
  question : String
  model : String
  tools : Option JSValue
  session_id : String

/-- One `{ type: 'text', text }` content item of the MCP result envelope. -/
structure ContentItem where
  type : String
  text : String
  deriving Repr, DecidableEq

/-- The result envelope built by `formatResponse` (src/index.js
lines 61–86).  The handlers modelled here all call `formatResponse` with
`toolCall = null`, so the optional serialized tool-call item and
`tool_call` field never appear and are omitted from the model. -/
structure MCPResponse where
  content : List ContentItem
  session_id : String
  deriving Repr, DecidableEq

/-- `formatResponse(answer, sessionId)` (src/index.js lines 61–86) for the
`toolCall = null` case. -/
def formatResponse (answer sessionId : String) : MCPResponse :=
  { content := [⟨"text", answer ++ "\n\nIf you want to continue this conversation, specify session_id=\"" ++ sessionId ++ "\"."⟩],
    session_id := sessionId }

/-- `setupConversationContext(sessionId, question)` (src/index.js
lines 89–93): resolve the id, then fetch (and, on first access, create)
the history.  Returns `(resolvedSessionId, history, store)`. -/
def setupConversationContext (digits : List (Fin 16)) (store : SessionStore)
    (sessionId : String) : String × List Turn × SessionStore :=
  let resolved := resolveSessionId digits (some sessionId) true
  let got := getConversationHistory store (some resolved)
  (resolved, got.1, got.2)

/-- `saveConversationHistory(sessionId, question, answer)` (src/index.js
lines 96–99). -/
def saveConversationHistory (store : SessionStore) (sessionId question answer : String) :
    SessionStore :=
  addToConversationHistory
    (addToConversationHistory store (some sessionId) "user" question)
    (some sessionId) "assistant" answer

/-- The OpenAI-style request the GPT handler builds (src/index.js
lines 226–246): system prompt entry, history, new user entry. -/
structure GPTRequest where
  model : String
  messages : List Turn
  tools : Option JSValue

/-- Message assembly of `handleGPTRequest` (src/index.js lines 226–241). -/
def buildGPTRequest (model : String) (history : List Turn) (question : String)
    (tools : Option JSValue) : GPTRequest :=
  { model := model,
    messages := ⟨"system", SYSTEM_PROMPT⟩ :: (history ++ [⟨"user", question⟩]),
    tools := tools }

/-- The Anthropic request the Claude handler builds (src/index.js
lines 268–285): history plus the new question in `messages`, with the
preamble in the separate `system` parameter. -/
structure ClaudeRequest where
  model : String
  system : String
  messages : List Turn
  tools : Option JSValue

/-- Message assembly of `handleClaudeRequest` (src/index.js
lines 268–285). -/
def buildClaudeRequest (model : String) (history : List Turn) (question : String)
    (tools : Option JSValue) : ClaudeRequest :=
  { model := model,
    system := SYSTEM_PROMPT,
    messages := history ++ [⟨"user", question⟩],
    tools := tools }

/-- One Gemini content entry `{ role, parts: [{ text }] }`, with parts
reduced to their text payloads. -/
structure GeminiContent where
  role : String
  parts : List String
  deriving Repr, DecidableEq

/-- History relabeling of `handleGeminiRequest` (src/index.js
lines 311–314): stored `assistant` turns become `model` entries, everything
else becomes `user`. -/
def toGeminiHistory (history : List Turn) : List GeminiContent :=
  history.map (fun msg => ⟨if msg.role = "assistant" then "model" else "user", [msg.content]⟩)

/-- The Gemini request parameters (src/index.js lines 317–340): relabeled
history plus the new question in `contents`, preamble in the separate
`systemInstruction` parameter. -/
structure GeminiRequest where
  contents : List GeminiContent
  systemInstruction : GeminiContent
  tools : Option JSValue

/-- Request assembly of `handleGeminiRequest` (src/index.js
lines 317–340). -/
def buildGeminiRequest (history : List Turn) (question : String)
    (tools : Option JSValue) : GeminiRequest :=
  { contents := toGeminiHistory history ++ [⟨"user", [question]⟩],
    systemInstruction := ⟨"system", [SYSTEM_PROMPT]⟩,
    tools := tools }

/-- The Gemini call: model selection (`getGenerativeModel`) plus request. -/
structure GeminiCall where
  model : String
  request : GeminiRequest

/-- `handleGPTRequest(args)` (src/index.js lines 220–259).  The remote SDK
call together with the answer extraction
(`completion.choices[0]?.message?.content || 'No response generated'`) is
the external effect; it is modelled by the parameter `api`, which maps the
assembled request to either a thrown `APIError` or the final answer
string.  On failure the handler re-throws via `handleAPIError` and commits
nothing; on success it saves the two new turns and formats the response. -/
def handleGPTRequest (digits : List (Fin 16)) (api : GPTRequest → Except APIError String)
    (args : ValidatedAsk) (store : SessionStore) :
    SessionStore × Except String MCPResponse :=
  let ctx := setupConversationContext digits store args.session_id
  match api (buildGPTRequest args.model ctx.2.1 args.question args.tools) with
  | .error e => (ctx.2.2, .error (handleAPIError e "OpenAI" "OPENAI_API_KEY"))
  | .ok answer =>
      (saveConversationHistory ctx.2.2 ctx.1 args.question answer,
       .ok (formatResponse answer ctx.1))

/-- `handleClaudeRequest(args)` (src/index.js lines 262–298), modelled like
the GPT handler. -/
def handleClaudeRequest (digits : List (Fin 16)) (api : ClaudeRequest → Except APIError String)
    (args : ValidatedAsk) (store : SessionStore) :
    SessionStore × Except String MCPResponse :=
  let ctx := setupConversationContext digits store args.session_id
  match api (buildClaudeRequest args.model ctx.2.1 args.question args.tools) with
  | .error e => (ctx.2.2, .error (handleAPIError e "Anthropic" "ANTHROPIC_API_KEY"))
  | .ok answer =>
      (saveConversationHistory ctx.2.2 ctx.1 args.question answer,
       .ok (formatResponse answer ctx.1))

/-- `handleGeminiRequest(args)` (src/index.js lines 301–358).  Its catch
block first classifies any error whose message mentions `API_KEY` as an
authentication failure and only then delegates to `handleAPIError`. -/
def handleGeminiRequest (digits : List (Fin 16)) (api : GeminiCall → Except APIError String)
    (args : ValidatedAsk) (store : SessionStore) :
    SessionStore × Except String MCPResponse :=
  let ctx := setupConversationContext digits store args.session_id
  match api ⟨args.model, buildGeminiRequest ctx.2.1 args.question args.tools⟩ with
  | .error e =>
      (ctx.2.2, .error
        (if jsIncludes e.message "API_KEY" then
          "Google API key is invalid or missing. Please set GOOGLE_API_KEY environment variable."
        else handleAPIError e "Google" "GOOGLE_API_KEY"))
  | .ok answer =>
      (saveConversationHistory ctx.2.2 ctx.1 args.question answer,
       .ok (formatResponse answer ctx.1))

/-- `handleClearConversation(args)` (src/index.js lines 405–418): zod
defaults an absent `session_id` to the sentinel `"default"`, and the
handler deletes exactly that key — no sentinel resolution happens. -/
def handleClearConversation (sessionIdArg : Option String) (store : SessionStore) :
    SessionStore × MCPResponse :=
  let validated := sessionIdArg.getD "default"
  (clearConversation store (some validated),
   { content := [⟨"text", "Conversation history cleared for session: " ++ validated ++ "\n\nIf you want to start a new conversation, specify session_id=\"" ++ validated ++ "\"."⟩],
     session_id := validated })

/-! ### Specification-side normalizer (spec §4.5 and §9)

The spec describes the normalizer as "a tagged-variant matcher (ordered
list of {predicate, extractor, tag} pairs) evaluated in fixed priority
order, returning the first match".  The definitions below transcribe the
six shapes from the spec's words; `extractSpec` is the ordered first-match
evaluation, to be compared with `extractToolCall` above. -/

/-- One shape of the spec's tagged-variant matcher: a tag, a predicate and
an extractor, each reading the raw completion and its first message. -/
structure ShapeRule where
  tag : String
  guard : JSValue → JSValue → Except String Bool
  extract : (String → Option JSValue) → JSValue → JSValue → Except String ToolCall

/-- Spec shape 1: a deprecated-style named function invocation attached
directly to the message. -/
def shape1 : ShapeRule :=
  { tag := "function_call",
    guard := fun _ message => .ok (truthy (getFieldRaw message "function_call")),
    extract := fun jp _ message =>
      let fcv := getFieldRaw message "function_call"
      .ok ⟨"function_call", jsCoalesce (getFieldRaw fcv "name") .null,
        parseArgs jp (getFieldRaw fcv "arguments"), fcv⟩ }

/-- Spec shape 2: a single generic `tool_call` attached directly to the
message. -/
def shape2 : ShapeRule :=
  { tag := "tool_call",
    guard := fun _ message => .ok (truthy (getFieldRaw message "tool_call")),
    extract := fun jp _ message =>
      let tcv := getFieldRaw message "tool_call"
      .ok ⟨"tool_call", jsCoalesce (getFieldRaw tcv "name") .null,
        parseArgs jp (jsCoalesce (getFieldRaw tcv "arguments") (jsCoalesce (getFieldRaw tcv "args") tcv)),
        tcv⟩ }

/-- Spec shape 3: a single `tool_call` nested under a `metadata` field. -/
def shape3 : ShapeRule :=
  { tag := "metadata.tool_call",
    guard := fun _ message => .ok (truthy (optChain (getFieldRaw message "metadata") "tool_call")),
    extract := fun jp _ message =>
      let mtc := optChain (getFieldRaw message "metadata") "tool_call"
      .ok ⟨"metadata.tool_call", jsCoalesce (getFieldRaw mtc "name") .null,
        parseArgs jp (jsCoalesce (getFieldRaw mtc "arguments") (jsCoalesce (getFieldRaw mtc "args") mtc)),
        mtc⟩ }

/-- Spec shape 4: the first entry of an array-valued `tool_calls` field. -/
def shape4 : ShapeRule :=
  { tag := "tool_calls[0]",
    guard := fun _ message =>
      let tcs := getFieldRaw message "tool_calls"
      .ok (truthy tcs && isArray tcs && decide (0 < arrLen tcs)),
    extract := fun jp _ message =>
      let tc := getIndex (getFieldRaw message "tool_calls") 0
      match getFieldE tc "function" with
      | .error e => .error e
      | .ok tcf =>
          .ok ⟨"tool_calls[0]",
            jsCoalesce (optChain tcf "name") (jsCoalesce (getFieldRaw tc "name") .null),
            parseArgs jp (jsCoalesce (optChain tcf "arguments")
              (jsCoalesce (optChain tcf "args") (jsCoalesce tcf tc))),
            tc⟩ }

/-- Spec shape 5: the first content block of type `tool_use` within an
array-valued `content` field. -/
def shape5 : ShapeRule :=
  { tag := "anthropic.tool_use",
    guard := fun _ message =>
      let contentv := getFieldRaw message "content"
      if truthy contentv && isArray contentv then
        Except.map (fun found => truthy ((found).getD JSValue.undefined))
          (jsFind (fun block => Except.map (fun t => isStrVal t "tool_use") (getFieldE block "type"))
            (asArr contentv))
      else .ok false,
    extract := fun jp _ message =>
      match jsFind (fun block => Except.map (fun t => isStrVal t "tool_use") (getFieldE block "type"))
          (asArr (getFieldRaw message "content")) with
      | .error e => .error e
      | .ok found =>
          let toolUse := found.getD .undefined
          .ok ⟨"anthropic.tool_use", jsCoalesce (getFieldRaw toolUse "name") .null,
            parseArgs jp (getFieldRaw toolUse "input"), toolUse⟩ }

/-- Spec shape 6: the first part carrying a `function_call` within the
first candidate's content parts (a top-level response shape). -/
def shape6 : ShapeRule :=
  { tag := "gemini.function_call",
    guard := fun completion _ =>
      let partsv := optChain (optChain (optChainIdx (optChain completion "candidates") 0) "content") "parts"
      if truthy partsv && isArray partsv then
        Except.map (fun found => truthy (optChain ((found).getD JSValue.undefined) "function_call"))
          (jsFind (fun part => Except.map truthy (getFieldE part "function_call")) (asArr partsv))
      else .ok false,
    extract := fun jp completion _ =>
      let partsv := optChain (optChain (optChainIdx (optChain completion "candidates") 0) "content") "parts"
      match jsFind (fun part => Except.map truthy (getFieldE part "function_call")) (asArr partsv) with
      | .error e => .error e
      | .ok found =>
          let fcv := optChain (found.getD .undefined) "function_call"
          .ok ⟨"gemini.function_call", jsCoalesce (getFieldRaw fcv "name") .null,
            parseArgs jp (jsCoalesce (getFieldRaw fcv "args") (getFieldRaw fcv "arguments")),
            fcv⟩ }

/-- The six spec shapes in their fixed priority order. -/
def shapeRules : List ShapeRule := [shape1, shape2, shape3, shape4, shape5, shape6]

/-- Ordered first-match evaluation of a rule list: evaluate each predicate
in turn, return the first matching shape's extraction, and `null` when no
shape matches. -/
def firstMatch (jp : String → Option JSValue) (completion message : JSValue) :
    List ShapeRule → Except String (Option ToolCall)
  | [] => .ok none
  | r :: rs =>
      match r.guard completion message with
      | .error e => .error e
      | .ok true => Except.map some (r.extract jp completion message)
      | .ok false => firstMatch jp completion message rs

/-- The spec's matcher: first match over the six shapes against the
completion and its first message. -/
def extractSpec (jp : String → Option JSValue) (completion : JSValue) :
    Except String (Option ToolCall) :=
  firstMatch jp completion (messageOf completion) shapeRules

/-! ### Store lemmas -/

theorem findSession_setSession_self (store : SessionStore) (sid : String) (h : List Turn) :
    findSession (setSession store sid h) sid = some h := by
  simp [findSession, setSession, List.find?]

theorem findSession_deleteSession_self (store : SessionStore) (sid : String) :
    findSession (deleteSession store sid) sid = none := by
  have hfind : List.find? (fun p => decide (p.1 = sid)) (deleteSession store sid) = none := by
    rw [List.find?_eq_none]
    intro x hx
    have hmem := List.of_mem_filter hx
    simp only [decide_eq_true_eq] at hmem ⊢
    exact hmem
  simp only [findSession, hfind]
  rfl

theorem findSession_deleteSession_ne (store : SessionStore) (sid id : String)
    (hne : id ≠ sid) : findSession (deleteSession store sid) id = findSession store id := by
  induction store with
  | nil => rfl
  | cons p t ih =>
      by_cases hp : p.1 = sid
      · have h1 : deleteSession (p :: t) sid = deleteSession t sid := by
          simp [deleteSession, List.filter_cons, hp]
        have hpid : ¬((fun q : String × List Turn => decide (q.1 = id)) p = true) := by
          simp only [decide_eq_true_eq]
          rw [hp]
          exact Ne.symm hne
        have h2 : findSession (p :: t) id = findSession t id := by
          unfold findSession
          rw [@List.find?_cons_of_neg _ (fun q : String × List Turn => decide (q.1 = id)) p t hpid]
        rw [h1, ih, h2]
      · have h1 : deleteSession (p :: t) sid = p :: deleteSession t sid := by
          simp [deleteSession, List.filter_cons, hp]
        rw [h1]
        by_cases hq : p.1 = id
        · have hpos : (fun q : String × List Turn => decide (q.1 = id)) p = true := by
            simp [hq]
          unfold findSession
          rw [@List.find?_cons_of_pos _ (fun q : String × List Turn => decide (q.1 = id)) p
            (deleteSession t sid) hpos]
          rw [@List.find?_cons_of_pos _ (fun q : String × List Turn => decide (q.1 = id)) p t hpos]
        · have hneg : ¬((fun q : String × List Turn => decide (q.1 = id)) p = true) := by
            simp [hq]
          unfold findSession
          rw [@List.find?_cons_of_neg _ (fun q : String × List Turn => decide (q.1 = id)) p
            (deleteSession t sid) hneg]
          rw [@List.find?_cons_of_neg _ (fun q : String × List Turn => decide (q.1 = id)) p t hneg]
          exact ih

theorem findSession_setSession_ne (store : SessionStore) (sid id : String) (h : List Turn)
    (hne : id ≠ sid) : findSession (setSession store sid h) id = findSession store id := by
  have hneg : ¬((fun q : String × List Turn => decide (q.1 = id)) (sid, h) = true) := by
    simp only [decide_eq_true_eq]
    exact Ne.symm hne
  unfold findSession setSession
  rw [@List.find?_cons_of_neg _ (fun q : String × List Turn => decide (q.1 = id)) (sid, h)
    (deleteSession store sid) hneg]
  exact findSession_deleteSession_ne store sid id hne

/-! ### Truncation lemmas -/

theorem lastN_of_le {n : Nat} {l : List Turn} (h : l.length ≤ n) : lastN n l = l := by
  unfold lastN
  rw [Nat.sub_eq_zero_of_le h, List.drop_zero]

theorem length_lastN (n : Nat) (l : List Turn) : (lastN n l).length = min n l.length := by
  unfold lastN
  rw [List.length_drop]
  omega

theorem lastN_append_left (n : Nat) (l l2 : List Turn) :
    lastN n (lastN n l ++ l2) = lastN n (l ++ l2) := by
  by_cases hl : l.length ≤ n
  · rw [lastN_of_le hl]
  · have hlen : (lastN n l).length = n := by
      rw [length_lastN]
      omega
    unfold lastN
    rw [List.drop_append_eq_append_drop, List.drop_append_eq_append_drop, List.drop_drop]
    simp only [List.length_drop, List.length_append]
    congr 1
    · congr 1
      omega
    · congr 1
      omega

theorem ifTrunc_eq_lastN (l : List Turn) :
    (if l.length > 20 then l.drop (l.length - 20) else l) = lastN 20 l := by
  by_cases h : l.length > 20
  · simp only [h, if_pos]
    rfl
  · simp only [h, if_neg, not_false_iff]
    rw [lastN_of_le (by omega)]

/-- Effect of one `addToConversationHistory` on the stored sequence for
its own id: push, then keep the last 20. -/
theorem historyOf_add (store : SessionStore) (sid role content : String) :
    historyOf (addToConversationHistory store (some sid) role content) sid
      = lastN 20 (historyOf store sid ++ [⟨role, content⟩]) := by
  unfold addToConversationHistory getConversationHistory historyOf
  simp only [Option.getD_some]
  cases hfind : findSession store sid with
  | some h =>
      simp only [hfind, Option.getD_some]
      rw [findSession_setSession_self, Option.getD_some, ifTrunc_eq_lastN]
  | none =>
      simp only [hfind, Option.getD_none, List.nil_append]
      rw [findSession_setSession_self, Option.getD_some, ifTrunc_eq_lastN]

/-- `addToConversationHistory` leaves every other id's stored sequence
unchanged. -/
theorem historyOf_add_ne (store : SessionStore) (sid id role content : String)
    (hne : id ≠ sid) :
    historyOf (addToConversationHistory store (some sid) role content) id
      = historyOf store id := by
  unfold addToConversationHistory getConversationHistory historyOf
  simp only [Option.getD_some]
  cases hfind : findSession store sid with
  | some h =>
      simp only [hfind]
      rw [findSession_setSession_ne _ _ _ _ hne]
  | none =>
      simp only [hfind]
      rw [findSession_setSession_ne _ _ _ _ hne, findSession_setSession_ne _ _ _ _ hne]

/-- `getConversationHistory` changes no stored sequence (it at most
materializes an empty one). -/
theorem historyOf_get (store : SessionStore) (sid : String) (id : String) :
    historyOf (getConversationHistory store (some sid)).2 id = historyOf store id := by
  unfold getConversationHistory historyOf
  simp only [Option.getD_some]
  cases hfind : findSession store sid with
  | some h => simp [hfind]
  | none =>
      simp only [hfind]
      by_cases hid : id = sid
      · subst hid
        rw [findSession_setSession_self, hfind]
        rfl
      · rw [findSession_setSession_ne _ _ _ _ hid]

/-- The first component of `getConversationHistory` is the stored
sequence. -/
theorem getConversationHistory_fst (store : SessionStore) (sid : String) :
    (getConversationHistory store (some sid)).1 = historyOf store sid := by
  unfold getConversationHistory historyOf
  simp only [Option.getD_some]
  cases hfind : findSession store sid with
  | some h => simp [hfind]
  | none => simp [hfind]

/-- Folding appends over a store whose stored sequence is short keeps the
last 20 of the concatenation. -/
theorem historyOf_foldl_add (sid : String) (ts : List Turn) :
    ∀ store : SessionStore, (historyOf store sid).length ≤ 20 →
      historyOf (ts.foldl (fun s t => addToConversationHistory s (some sid) t.role t.content) store) sid
        = lastN 20 (historyOf store sid ++ ts) := by
  induction ts with
  | nil =>
      intro store hlen
      rw [List.foldl_nil, List.append_nil, lastN_of_le hlen]
  | cons t ts ih =>
      intro store hlen
      rw [List.foldl_cons]
      have hstep := historyOf_add store sid t.role t.content
      have hlen2 : (historyOf (addToConversationHistory store (some sid) t.role t.content) sid).length ≤ 20 := by
        rw [hstep, length_lastN]
        omega
      rw [ih _ hlen2, hstep, lastN_append_left]
      rw [List.append_assoc]
      rfl

/-- A generated session id is `Math.random().toString(16).slice(2, 8)`,
hence at most six characters long. -/
theorem generateSessionId_length (digits : List (Fin 16)) :
    (generateSessionId digits).length ≤ 6 := by
  unfold generateSessionId jsSlice
  show (((randomToHexString digits).data.drop 2).take (8 - 2)).length ≤ 6
  rw [List.length_take]
  omega

/-- A generated session id is never the seven-character sentinel. -/
theorem generateSessionId_ne_default (digits : List (Fin 16)) :
    generateSessionId digits ≠ "default" := by
  intro h
  have h6 := generateSessionId_length digits
  rw [h] at h6
  have h7 : ("default" : String).length = 7 := rfl
  omega

/-- Under the default options the resolver never yields the sentinel. -/
theorem resolveSessionId_ne_default (digits : List (Fin 16)) (sessionId : Option String) :
    resolveSessionId digits sessionId true ≠ "default" := by
  cases sessionId with
  | none => exact generateSessionId_ne_default digits
  | some s =>
      by_cases h1 : s = ""
      · simp only [resolveSessionId, h1]
        exact generateSessionId_ne_default digits
      · by_cases h2 : s = "default"
        · subst h2
          simp only [resolveSessionId, if_true]
          exact generateSessionId_ne_default digits
        · simp only [resolveSessionId, if_neg h1, if_neg h2]
          exact h2

/-! ### Normalizer lemmas -/

theorem firstMatch_cons_true {jp : String → Option JSValue} {c m : JSValue} {r : ShapeRule}
    {rs : List ShapeRule} (h : r.guard c m = .ok true) :
    firstMatch jp c m (r :: rs) = Except.map some (r.extract jp c m) := by
  unfold firstMatch
  rw [h]

theorem firstMatch_cons_false {jp : String → Option JSValue} {c m : JSValue} {r : ShapeRule}
    {rs : List ShapeRule} (h : r.guard c m = .ok false) :
    firstMatch jp c m (r :: rs) = firstMatch jp c m rs := by
  conv_lhs => unfold firstMatch
  rw [h]

theorem firstMatch_cons_error {jp : String → Option JSValue} {c m : JSValue} {r : ShapeRule}
    {rs : List ShapeRule} {e : String} (h : r.guard c m = .error e) :
    firstMatch jp c m (r :: rs) = .error e := by
  unfold firstMatch
  rw [h]

theorem firstMatch_all_false {jp : String → Option JSValue} {c m : JSValue} :
    ∀ {rs : List ShapeRule}, (∀ r ∈ rs, r.guard c m = .ok false) →
      firstMatch jp c m rs = .ok none := by
  intro rs
  induction rs with
  | nil => intro _; rfl
  | cons r rs ih =>
      intro hall
      rw [firstMatch_cons_false (hall r (List.mem_cons_self r rs))]
      exact ih (fun q hq => hall q (List.mem_cons_of_mem r hq))

/-- The fall-through tail of the code's normalizer is exactly the spec's
sixth rule. -/
theorem geminiExtract_eq (jp : String → Option JSValue) (c m : JSValue) :
    geminiExtract jp c = firstMatch jp c m [shape6] := by
  simp only [geminiExtract]
  cases hcond : (truthy (optChain (optChain (optChainIdx (optChain c "candidates") 0) "content") "parts")
      && isArray (optChain (optChain (optChainIdx (optChain c "candidates") 0) "content") "parts")) with
  | false =>
      rw [firstMatch_cons_false (by simp only [shape6]; rw [hcond]; rfl)]
      rfl
  | true =>
      cases hfind : jsFind (fun part => Except.map truthy (getFieldE part "function_call"))
          (asArr (optChain (optChain (optChainIdx (optChain c "candidates") 0) "content") "parts")) with
      | error e =>
          rw [firstMatch_cons_error (by simp only [shape6]; rw [hcond, hfind]; rfl)]
          rfl
      | ok found =>
          cases hfcv : truthy (optChain (found.getD .undefined) "function_call") with
          | false =>
              rw [firstMatch_cons_false
                (by simp only [shape6]; rw [hcond, hfind]; simp [Except.map, hfcv])]
              simp [hfcv, firstMatch]
          | true =>
              rw [firstMatch_cons_true
                (by simp only [shape6]; rw [hcond, hfind]; simp [Except.map, hfcv])]
              simp only [shape6]
              rw [hfind]
              simp [Except.map, hfcv]

/-- The code's normalizer is exactly the spec's ordered first-match
matcher over the six shapes. -/
theorem extractToolCall_eq_extractSpec (jp : String → Option JSValue) (c : JSValue) :
    extractToolCall jp c = extractSpec jp c := by
  unfold extractSpec
  simp only [shapeRules]
  simp only [extractToolCall]
  cases h1 : truthy (getFieldRaw (messageOf c) "function_call") with
  | true =>
      rw [firstMatch_cons_true (by simp only [shape1]; rw [h1])]
      simp [shape1, Except.map]
  | false =>
      rw [firstMatch_cons_false (by simp only [shape1]; rw [h1])]
      simp only [Bool.false_eq_true, if_false]
      cases h2 : truthy (getFieldRaw (messageOf c) "tool_call") with
      | true =>
          rw [firstMatch_cons_true (by simp only [shape2]; rw [h2])]
          simp [shape2, Except.map]
      | false =>
          rw [firstMatch_cons_false (by simp only [shape2]; rw [h2])]
          simp only [Bool.false_eq_true, if_false]
          cases h3 : truthy (optChain (getFieldRaw (messageOf c) "metadata") "tool_call") with
          | true =>
              rw [firstMatch_cons_true (by simp only [shape3]; rw [h3])]
              simp [shape3, Except.map]
          | false =>
              rw [firstMatch_cons_false (by simp only [shape3]; rw [h3])]
              simp only [Bool.false_eq_true, if_false]
              cases h4 : (truthy (getFieldRaw (messageOf c) "tool_calls")
                  && isArray (getFieldRaw (messageOf c) "tool_calls")
                  && decide (0 < arrLen (getFieldRaw (messageOf c) "tool_calls"))) with
              | true =>
                  rw [firstMatch_cons_true (by simp only [shape4]; rw [h4])]
                  simp only [if_true]
                  cases hfe : getFieldE (getIndex (getFieldRaw (messageOf c) "tool_calls") 0) "function" with
                  | error e =>
                      simp only [shape4]
                      rw [hfe]
                      rfl
                  | ok tcf =>
                      simp only [shape4]
                      rw [hfe]
                      rfl
              | false =>
                  rw [firstMatch_cons_false (by simp only [shape4]; rw [h4])]
                  simp only [Bool.false_eq_true, if_false]
                  cases h5 : (truthy (getFieldRaw (messageOf c) "content")
                      && isArray (getFieldRaw (messageOf c) "content")) with
                  | false =>
                      rw [firstMatch_cons_false (by simp only [shape5]; rw [h5]; rfl)]
                      simp only [Bool.false_eq_true, if_false]
                      exact geminiExtract_eq jp c (messageOf c)
                  | true =>
                      simp only [if_true]
                      cases hf5 : jsFind (fun block =>
                          Except.map (fun t => isStrVal t "tool_use") (getFieldE block "type"))
                          (asArr (getFieldRaw (messageOf c) "content")) with
                      | error e =>
                          rw [firstMatch_cons_error (by simp only [shape5]; rw [h5, hf5]; rfl)]
                      | ok found =>
                          cases h5t : truthy (found.getD .undefined) with
                          | true =>
                              rw [firstMatch_cons_true
                                (by simp only [shape5]; rw [h5, hf5]; simp [Except.map, h5t])]
                              simp only [shape5]
                              rw [hf5]
                              simp [Except.map, h5t]
                          | false =>
                              rw [firstMatch_cons_false
                                (by simp only [shape5]; rw [h5, hf5]; simp [Except.map, h5t])]
                              simp only [h5t, Bool.false_eq_true, if_false]
                              exact geminiExtract_eq jp c (messageOf c)

/-- The message a single-choice wrapper presents to the normalizer is the
wrapped message itself (when it is not nullish). -/
theorem messageOf_mkCompletion (m : JSValue) (h : isNullish m = false) :
    messageOf (mkCompletion m) = m := by
  have hr : optChain (optChainIdx (optChain (mkCompletion m) "choices") 0) "message" = m := rfl
  simp only [messageOf, hr, h]
  rfl

/-! ### Claim theorems -/

/-- C1: for every session id, appending any sequence of N turns to an
initially empty history leaves exactly the most recent min(N, 20) appended
turns, in insertion order (`drop (N - 20)` keeps the newest 20, discarding
the oldest first); and the 20-entry bound holds after every single append,
whatever the prior store contents. -/
theorem history_bounded_c1 :
    (∀ (store : SessionStore) (sid role content : String),
        (historyOf (addToConversationHistory store (some sid) role content) sid).length ≤ 20)
    ∧ (∀ (store : SessionStore) (sid : String) (ts : List Turn),
        historyOf store sid = [] →
          historyOf (ts.foldl (fun s t => addToConversationHistory s (some sid) t.role t.content) store) sid
            = ts.drop (ts.length - 20)
          ∧ (historyOf (ts.foldl (fun s t => addToConversationHistory s (some sid) t.role t.content) store) sid).length
            = min ts.length 20) := by
  constructor
  · intro store sid role content
    rw [historyOf_add, length_lastN]
    omega
  · intro store sid ts hempty
    have hlen : (historyOf store sid).length ≤ 20 := by
      rw [hempty]
      simp
    have hfold := historyOf_foldl_add sid ts store hlen
    rw [hempty, List.nil_append] at hfold
    refine ⟨hfold, ?_⟩
    rw [hfold]
    show (lastN 20 ts).length = min ts.length 20
    rw [length_lastN]
    omega

/-- Witness for C1 at a concrete fresh session: two appended turns are
stored verbatim. -/
theorem history_bounded_c1_witness :
    historyOf (([⟨"user", "q"⟩, ⟨"assistant", "a"⟩] : List Turn).foldl
        (fun s t => addToConversationHistory s (some "s1") t.role t.content) ([] : SessionStore)) "s1"
      = [⟨"user", "q"⟩, ⟨"assistant", "a"⟩] := by
  have h := (history_bounded_c1.2 ([] : SessionStore) "s1" [⟨"user", "q"⟩, ⟨"assistant", "a"⟩] rfl).1
  exact h.trans (by decide)

/-- C5: under the default options, an absent, empty or sentinel
`"default"` requested id resolves to the freshly generated identifier, and
any other id is returned unchanged. -/
theorem resolve_sentinel_c5 :
    ∀ digits : List (Fin 16),
      resolveSessionId digits none true = generateSessionId digits
      ∧ resolveSessionId digits (some "") true = generateSessionId digits
      ∧ resolveSessionId digits (some "default") true = generateSessionId digits
      ∧ ∀ s : String, s ≠ "" → s ≠ "default" → resolveSessionId digits (some s) true = s := by
  intro digits
  refine ⟨rfl, rfl, rfl, ?_⟩
  intro s h1 h2
  simp [resolveSessionId, h1, h2]

/-- Witness for C5 at a concrete non-sentinel id and concrete digits. -/
theorem resolve_sentinel_c5_witness :
    resolveSessionId [⟨3, by omega⟩] (some "ab12") true = "ab12" :=
  (resolve_sentinel_c5 [⟨3, by omega⟩]).2.2.2 "ab12" (by decide) (by decide)

/-- C9: clearing a session removes it entirely and is idempotent; clearing
an id that was never created leaves the store untouched (hence does not
fail), and a subsequent get on a cleared or never-created id yields an
empty history. -/
theorem clear_idempotent_c9 :
    ∀ (store : SessionStore) (sid : String),
      clearConversation (clearConversation store (some sid)) (some sid)
          = clearConversation store (some sid)
      ∧ (getConversationHistory (clearConversation store (some sid)) (some sid)).1 = []
      ∧ (findSession store sid = none → (getConversationHistory store (some sid)).1 = [])
      ∧ (findSession store sid = none → clearConversation store (some sid) = store) := by
  intro store sid
  refine ⟨?_, ?_, ?_, ?_⟩
  · unfold clearConversation deleteSession
    simp [List.filter_filter]
  · show (getConversationHistory (deleteSession store sid) (some sid)).1 = []
    rw [getConversationHistory_fst]
    unfold historyOf
    rw [findSession_deleteSession_self]
    rfl
  · intro hnone
    rw [getConversationHistory_fst]
    unfold historyOf
    rw [hnone]
    rfl
  · intro hnone
    unfold clearConversation deleteSession
    rw [List.filter_eq_self]
    intro a ha
    have hfind : List.find? (fun p => decide (p.1 = sid)) store = none := by
      unfold findSession at hnone
      cases hf : List.find? (fun p => decide (p.1 = sid)) store with
      | none => rfl
      | some x =>
          rw [hf] at hnone
          simp at hnone
    rw [List.find?_eq_none] at hfind
    have := hfind a ha
    simpa using this

/-- Witness for C9 at a never-created id in a concrete store. -/
theorem clear_idempotent_c9_witness :
    (getConversationHistory [("x", [⟨"user", "q"⟩])] (some "y")).1 = ([] : List Turn)
    ∧ clearConversation [("x", [⟨"user", "q"⟩])] (some "y") = [("x", [⟨"user", "q"⟩])] :=
  ⟨(clear_idempotent_c9 [("x", [⟨"user", "q"⟩])] "y").2.2.1 rfl,
   (clear_idempotent_c9 [("x", [⟨"user", "q"⟩])] "y").2.2.2 rfl⟩

/-- C6: when the provider call of an ask handler fails, no turn is
committed — the stored history of every session id (in particular the
resolved one) is exactly what it was before the invocation, for the GPT,
Claude and Gemini handlers alike. -/
theorem no_partial_commit_c6 :
    ∀ (digits : List (Fin 16)) (args : ValidatedAsk) (store : SessionStore) (e : APIError),
      (∀ apiG : GPTRequest → Except APIError String, (∀ r, apiG r = .error e) →
        ∀ id, historyOf (handleGPTRequest digits apiG args store).1 id = historyOf store id)
      ∧ (∀ apiC : ClaudeRequest → Except APIError String, (∀ r, apiC r = .error e) →
        ∀ id, historyOf (handleClaudeRequest digits apiC args store).1 id = historyOf store id)
      ∧ (∀ apiM : GeminiCall → Except APIError String, (∀ r, apiM r = .error e) →
        ∀ id, historyOf (handleGeminiRequest digits apiM args store).1 id = historyOf store id) := by
  intro digits args store e
  refine ⟨?_, ?_, ?_⟩
  · intro api hfail id
    simp only [handleGPTRequest, hfail]
    exact historyOf_get store (resolveSessionId digits (some args.session_id) true) id
  · intro api hfail id
    simp only [handleClaudeRequest, hfail]
    exact historyOf_get store (resolveSessionId digits (some args.session_id) true) id
  · intro api hfail id
    simp only [handleGeminiRequest, hfail]
    exact historyOf_get store (resolveSessionId digits (some args.session_id) true) id

/-- Witness for C6: a concrete failing GPT call leaves a concrete store's
history for its own session untouched. -/
theorem no_partial_commit_c6_witness :
    historyOf (handleGPTRequest [] (fun _ => .error ⟨some 500, "boom"⟩)
        ⟨"q", "gpt-4o-2024-11-20", none, "abc"⟩ [("abc", [⟨"user", "old"⟩])]).1 "abc"
      = historyOf [("abc", [⟨"user", "old"⟩])] "abc" :=
  (no_partial_commit_c6 [] ⟨"q", "gpt-4o-2024-11-20", none, "abc"⟩ [("abc", [⟨"user", "old"⟩])]
    ⟨some 500, "boom"⟩).1 (fun _ => .error ⟨some 500, "boom"⟩) (fun _ => rfl) "abc"

/-- C7: context assembly for the side-channel providers (Claude's `system`
parameter, Gemini's `systemInstruction`) yields exactly the stored history
(for Gemini, relabeled) followed by the new question as a user entry; the
preamble travels only in the side channel and never appears as an entry of
the message sequence itself. -/
theorem sidechannel_preamble_c7 :
    ∀ (model question : String) (history : List Turn) (tools : Option JSValue),
      (buildClaudeRequest model history question tools).messages = history ++ [⟨"user", question⟩]
      ∧ (buildClaudeRequest model history question tools).system = SYSTEM_PROMPT
      ∧ ((∀ t ∈ history, t.role = "user" ∨ t.role = "assistant") →
          ∀ m ∈ (buildClaudeRequest model history question tools).messages, m.role ≠ "system")
      ∧ (buildGeminiRequest history question tools).contents
          = toGeminiHistory history ++ [⟨"user", [question]⟩]
      ∧ (buildGeminiRequest history question tools).systemInstruction = ⟨"system", [SYSTEM_PROMPT]⟩
      ∧ (∀ c ∈ (buildGeminiRequest history question tools).contents, c.role = "user" ∨ c.role = "model") := by
  intro model question history tools
  refine ⟨rfl, rfl, ?_, rfl, rfl, ?_⟩
  · intro hroles m hm
    rcases List.mem_append.mp hm with hin | hlast
    · rcases hroles m hin with h | h <;> rw [h] <;> decide
    · rcases List.mem_singleton.mp hlast with rfl
      simp
  · intro c hc
    rcases List.mem_append.mp hc with hin | hlast
    · rcases List.mem_map.mp hin with ⟨t, _, rfl⟩
      by_cases h : t.role = "assistant"
      · right
        simp [h]
      · left
        simp [h]
    · rcases List.mem_singleton.mp hlast with rfl
      left
      rfl

/-- Witness for C7 at a concrete history and question. -/
theorem sidechannel_preamble_c7_witness :
    (buildClaudeRequest "m" [⟨"user", "hi"⟩] "q" none).messages
      = [⟨"user", "hi"⟩, ⟨"user", "q"⟩]
    ∧ (⟨"user", "q"⟩ : Turn).role ≠ "system" :=
  ⟨((sidechannel_preamble_c7 "m" "q" [⟨"user", "hi"⟩] none).1).trans rfl,
   (sidechannel_preamble_c7 "m" "q" [⟨"user", "hi"⟩] none).2.2.1 (by decide)
     ⟨"user", "q"⟩ (by decide)⟩

/-- C8 counterexample: through the Gemini handler, a failure with HTTP
status 429 whose message mentions `API_KEY` is re-signaled as the
authentication message, not as the distinct rate-limit error the claim
promises for every status-429 failure. -/
theorem classify_errors_c8_counterexample :
    (handleGeminiRequest [] (fun _ => .error ⟨some 429, "quota for API_KEY exceeded"⟩)
        ⟨"q", "gemini-2.5-flash", none, "s1"⟩ []).2
      = .error "Google API key is invalid or missing. Please set GOOGLE_API_KEY environment variable."
    ∧ ("Google API key is invalid or missing. Please set GOOGLE_API_KEY environment variable." : String)
      ≠ "Google API rate limit exceeded. Please try again later." :=
  ⟨rfl, by decide⟩

/-- C8 (amended): failures delegated to `handleAPIError` are classified by
status — 401 yields the authentication message naming the expected
credential environment variable, 429 yields the rate-limit message (always
distinct from the authentication message), anything else yields the
generic provider-qualified message carrying the underlying text — except
that the Gemini handler first reclassifies any failure whose message
mentions `API_KEY` as an authentication failure before delegating. -/
theorem classify_errors_c8 :
    (∀ (e : APIError) (provider env : String),
      (e.status = some 401 →
        handleAPIError e provider env
            = provider ++ " API key is invalid or missing. Please set " ++ env ++ " environment variable."
        ∧ ∃ pre post, handleAPIError e provider env = pre ++ env ++ post)
      ∧ (e.status = some 429 →
        handleAPIError e provider env = provider ++ " API rate limit exceeded. Please try again later."
        ∧ provider ++ " API rate limit exceeded. Please try again later."
            ≠ provider ++ " API key is invalid or missing. Please set " ++ env ++ " environment variable.")
      ∧ (e.status ≠ some 401 → e.status ≠ some 429 →
        handleAPIError e provider env = provider ++ " API error: " ++ e.message))
    ∧ (∀ (digits : List (Fin 16)) (args : ValidatedAsk) (store : SessionStore)
        (api : GeminiCall → Except APIError String) (e : APIError), (∀ r, api r = .error e) →
        (handleGeminiRequest digits api args store).2
          = .error (if jsIncludes e.message "API_KEY" then
              "Google API key is invalid or missing. Please set GOOGLE_API_KEY environment variable."
            else handleAPIError e "Google" "GOOGLE_API_KEY")) := by
  constructor
  · intro e provider env
    refine ⟨?_, ?_, ?_⟩
    · intro hst
      constructor
      · simp [handleAPIError, hst]
      · refine ⟨provider ++ " API key is invalid or missing. Please set ", " environment variable.", ?_⟩
        simp [handleAPIError, hst]
    · intro hst
      constructor
      · simp [handleAPIError, hst]
      · intro heq
        have hl := congrArg String.length heq
        simp only [String.length_append] at hl
        have e1 : (" API rate limit exceeded. Please try again later." : String).length = 49 := rfl
        have e2 : (" API key is invalid or missing. Please set " : String).length = 43 := rfl
        have e3 : (" environment variable." : String).length = 22 := rfl
        rw [e1, e2, e3] at hl
        omega
    · intro h1 h2
      simp [handleAPIError, h1, h2]
  · intro digits args store api e hfail
    simp only [handleGeminiRequest, hfail]

/-- Witness for C8 at concrete failures for each classification branch and
for the Gemini exception. -/
theorem classify_errors_c8_witness :
    handleAPIError ⟨some 401, "unauthorized"⟩ "OpenAI" "OPENAI_API_KEY"
        = "OpenAI API key is invalid or missing. Please set OPENAI_API_KEY environment variable."
    ∧ handleAPIError ⟨some 429, "slow down"⟩ "OpenAI" "OPENAI_API_KEY"
        = "OpenAI API rate limit exceeded. Please try again later."
    ∧ handleAPIError ⟨some 500, "oops"⟩ "OpenAI" "OPENAI_API_KEY" = "OpenAI API error: oops"
    ∧ (handleGeminiRequest [] (fun _ => .error ⟨some 500, "oops"⟩)
        ⟨"q", "gemini-2.5-flash", none, "s1"⟩ []).2 = .error "Google API error: oops" :=
  ⟨((classify_errors_c8.1 ⟨some 401, "unauthorized"⟩ "OpenAI" "OPENAI_API_KEY").1 rfl).1.trans rfl,
   ((classify_errors_c8.1 ⟨some 429, "slow down"⟩ "OpenAI" "OPENAI_API_KEY").2.1 rfl).1.trans rfl,
   ((classify_errors_c8.1 ⟨some 500, "oops"⟩ "OpenAI" "OPENAI_API_KEY").2.2 (by decide) (by decide)).trans rfl,
   (classify_errors_c8.2 [] ⟨"q", "gemini-2.5-flash", none, "s1"⟩ []
     (fun _ => .error ⟨some 500, "oops"⟩) ⟨some 500, "oops"⟩ (fun _ => rfl)).trans rfl⟩

/-- C10: the clear handler deletes exactly the literal (defaulted)
`session_id` key with no sentinel resolution — an omitted argument deletes
only the key `"default"` and leaves every other session untouched — while
every ask handler stores history under a resolved id that is never
`"default"`, so a sentinel clear never removes ask-written history. -/
theorem clear_sentinel_frame_c10 :
    (∀ (store : SessionStore) (id : String), id ≠ "default" →
        findSession (handleClearConversation none store).1 id = findSession store id)
    ∧ (∀ store : SessionStore, findSession (handleClearConversation none store).1 "default" = none)
    ∧ (∀ store : SessionStore,
        (handleClearConversation none store).1 = (handleClearConversation (some "default") store).1)
    ∧ (∀ (digits : List (Fin 16)) (sessionId : Option String),
        resolveSessionId digits sessionId true ≠ "default")
    ∧ (∀ (digits : List (Fin 16)) (api : GPTRequest → Except APIError String)
        (args : ValidatedAsk) (store : SessionStore),
        historyOf (handleClearConversation none (handleGPTRequest digits api args store).1).1
            (resolveSessionId digits (some args.session_id) true)
          = historyOf (handleGPTRequest digits api args store).1
            (resolveSessionId digits (some args.session_id) true)) := by
  refine ⟨?_, ?_, ?_, ?_, ?_⟩
  · intro store id hid
    show findSession (deleteSession store "default") id = findSession store id
    exact findSession_deleteSession_ne store "default" id hid
  · intro store
    show findSession (deleteSession store "default") "default" = none
    exact findSession_deleteSession_self store "default"
  · intro store
    rfl
  · exact resolveSessionId_ne_default
  · intro digits api args store
    unfold historyOf
    show (findSession (deleteSession _ "default") _).getD [] = _
    rw [findSession_deleteSession_ne _ "default" _
      (resolveSessionId_ne_default digits (some args.session_id))]

/-- C2: the normalizer tries exactly the six recognized shapes in their
fixed priority order, returning the result built from the first matching
shape alone (first match wins, no merging), and returns `null` — never an
empty `ToolCall` — when none of the six shapes matches: it coincides with
the spec's ordered {predicate, extractor, tag} matcher on every input. -/
theorem extract_priority_c2 :
    ∀ (jp : String → Option JSValue) (completion : JSValue),
      extractToolCall jp completion = extractSpec jp completion
      ∧ ((∀ r ∈ shapeRules, r.guard completion (messageOf completion) = .ok false) →
          extractToolCall jp completion = .ok none) := by
  intro jp c
  refine ⟨extractToolCall_eq_extractSpec jp c, ?_⟩
  intro hall
  rw [extractToolCall_eq_extractSpec jp c]
  exact firstMatch_all_false hall

/-- Witness for C2 on the repository's own no-tool-call test vector. -/
theorem extract_priority_c2_witness :
    extractToolCall noParse (mkCompletion (.obj [("content", .str "just text")])) = .ok none := by
  apply (extract_priority_c2 noParse (mkCompletion (.obj [("content", .str "just text")]))).2
  intro r hr
  simp only [shapeRules, List.mem_cons, List.not_mem_nil, or_false] at hr
  rcases hr with rfl | rfl | rfl | rfl | rfl | rfl <;> rfl

/-- C3: the claim promises that `extractToolCall` never throws on any
input, but the code reads `tc.function` off the first `tool_calls` entry
unguarded, so a response whose `tool_calls` array holds `null` makes it
throw a TypeError (the spec's "must never throw" invariant is the clear
intent, so this is a code bug).  The parse-failure half of the claim does
hold: an unparsable arguments string still yields a `ToolCall` with `args`
null and the raw fragment preserved. -/
theorem extract_throws_c3 :
    extractToolCall noParse (mkCompletion (.obj [("tool_calls", .arr [.null])])) = .error "TypeError"
    ∧ extractToolCall noParse (mkCompletion (.obj [("function_call",
        .obj [("name", .str "g"), ("arguments", .str "not json")])]))
      = .ok (some ⟨"function_call", .str "g", .null,
          .obj [("name", .str "g"), ("arguments", .str "not json")]⟩) :=
  ⟨rfl, rfl⟩

/-- C4 counterexample: a `tool_calls` entry with top-level `name` and
`args` but no `function` sub-object yields `args` equal to the whole
entry — the parsed entry itself — not the entry's top-level `args` value
`{x: 1}` the claim predicts. -/
theorem extract_toolcalls_c4_counterexample :
    extractToolCall noParse
        (mkCompletion (.obj [("tool_calls",
          .arr [.obj [("name", .str "f"), ("args", .obj [("x", .num 1)])]])]))
      = .ok (some ⟨"tool_calls[0]", .str "f",
          .obj [("name", .str "f"), ("args", .obj [("x", .num 1)])],
          .obj [("name", .str "f"), ("args", .obj [("x", .num 1)])]⟩)
    ∧ (JSValue.obj [("name", .str "f"), ("args", .obj [("x", .num 1)])]) ≠ .obj [("x", .num 1)] :=
  ⟨rfl, by simp⟩

/-- C4 (amended): for a message carrying a non-empty array-valued
`tool_calls` field and no higher-priority shape, the normalizer returns a
shape-4-tagged `ToolCall` whose name and arguments come from the first
entry's nested `function` sub-object — a JSON-string `arguments` is
parsed — and when the `function` sub-object is absent the name falls back
to the entry's top-level `name` while the arguments fall back to the
parsed entry itself (not the entry's top-level `args` field). -/
theorem extract_toolcalls_c4 :
    ∀ (jp : String → Option JSValue) (m tc : JSValue) (rest : List JSValue),
      truthy (getFieldRaw m "function_call") = false →
      truthy (getFieldRaw m "tool_call") = false →
      truthy (optChain (getFieldRaw m "metadata") "tool_call") = false →
      getFieldRaw m "tool_calls" = .arr (tc :: rest) →
      isNullish tc = false →
      extractToolCall jp (mkCompletion m)
          = .ok (some ⟨"tool_calls[0]",
              jsCoalesce (optChain (getFieldRaw tc "function") "name")
                (jsCoalesce (getFieldRaw tc "name") .null),
              parseArgs jp (jsCoalesce (optChain (getFieldRaw tc "function") "arguments")
                (jsCoalesce (optChain (getFieldRaw tc "function") "args")
                  (jsCoalesce (getFieldRaw tc "function") tc))),
              tc⟩)
      ∧ (getFieldRaw tc "function" = .undefined →
          jsCoalesce (optChain (getFieldRaw tc "function") "name")
              (jsCoalesce (getFieldRaw tc "name") .null)
            = jsCoalesce (getFieldRaw tc "name") .null
          ∧ parseArgs jp (jsCoalesce (optChain (getFieldRaw tc "function") "arguments")
              (jsCoalesce (optChain (getFieldRaw tc "function") "args")
                (jsCoalesce (getFieldRaw tc "function") tc)))
            = parseArgs jp tc)
      ∧ (∀ (s : String) (v : JSValue),
          optChain (getFieldRaw tc "function") "arguments" = .str s → jp s = some v →
          parseArgs jp (jsCoalesce (optChain (getFieldRaw tc "function") "arguments")
            (jsCoalesce (optChain (getFieldRaw tc "function") "args")
              (jsCoalesce (getFieldRaw tc "function") tc)))
            = v) := by
  intro jp m tc rest h1 h2 h3 h4 htc
  have hnn : isNullish m = false := by
    cases m <;> simp_all [getFieldRaw, isNullish]
  refine ⟨?_, ?_, ?_⟩
  · simp only [extractToolCall, messageOf_mkCompletion m hnn, h1, h2, h3, h4,
      Bool.false_eq_true, if_false]
    have hcond : (truthy (JSValue.arr (tc :: rest)) && isArray (JSValue.arr (tc :: rest))
        && decide (0 < arrLen (JSValue.arr (tc :: rest)))) = true := by
      simp [truthy, isArray, arrLen, asArr]
    rw [hcond]
    simp only [if_true]
    have hidx : getIndex (JSValue.arr (tc :: rest)) 0 = tc := rfl
    rw [hidx]
    have hfe : getFieldE tc "function" = .ok (getFieldRaw tc "function") := by
      unfold getFieldE
      rw [htc]
      rfl
    rw [hfe]
  · intro hfn
    rw [hfn]
    constructor
    · rfl
    · rfl
  · intro s v hs hjp
    rw [hs]
    show parseArgs jp (jsCoalesce (.str s) _) = v
    have : jsCoalesce (.str s) (jsCoalesce (optChain (getFieldRaw tc "function") "args")
        (jsCoalesce (getFieldRaw tc "function") tc)) = .str s := rfl
    rw [this]
    simp [parseArgs, isNullish, isObjectType, hjp]

/-- Witness for C4 at a concrete `tool_calls` entry with a `function`
sub-object carrying JSON-string arguments. -/
theorem extract_toolcalls_c4_witness :
    extractToolCall
        (fun s => if s = "\x7b\"loc\": \"SF\"\x7d" then some (.obj [("loc", .str "SF")]) else none)
        (mkCompletion (.obj [("tool_calls", .arr [.obj [("id", .str "call_1"),
          ("type", .str "function"),
          ("function", .obj [("name", .str "get_weather"),
            ("arguments", .str "\x7b\"loc\": \"SF\"\x7d")])]])]))
      = .ok (some ⟨"tool_calls[0]", .str "get_weather", .obj [("loc", .str "SF")],
          .obj [("id", .str "call_1"), ("type", .str "function"),
            ("function", .obj [("name", .str "get_weather"),
              ("arguments", .str "\x7b\"loc\": \"SF\"\x7d")])]⟩) := by
  have h := (extract_toolcalls_c4
    (fun s => if s = "\x7b\"loc\": \"SF\"\x7d" then some (.obj [("loc", .str "SF")]) else none)
    (.obj [("tool_calls", .arr [.obj [("id", .str "call_1"), ("type", .str "function"),
      ("function", .obj [("name", .str "get_weather"),
        ("arguments", .str "\x7b\"loc\": \"SF\"\x7d")])]])])
    (.obj [("id", .str "call_1"), ("type", .str "function"),
      ("function", .obj [("name", .str "get_weather"),
        ("arguments", .str "\x7b\"loc\": \"SF\"\x7d")])])
    [] rfl rfl rfl rfl rfl).1
  exact h.trans rfl

/-- Witness for C10: a sentinel clear on a concrete store deletes only the
literal `"default"` key and leaves an ask-resolved session's history in
place. -/
theorem clear_sentinel_frame_c10_witness :
    findSession (handleClearConversation none
        [("default", [⟨"user", "x"⟩]), ("s1", [⟨"user", "y"⟩])]).1 "s1"
      = findSession [("default", [⟨"user", "x"⟩]), ("s1", [⟨"user", "y"⟩])] "s1"
    ∧ findSession (handleClearConversation none
        [("default", [⟨"user", "x"⟩]), ("s1", [⟨"user", "y"⟩])]).1 "default" = none
    ∧ resolveSessionId [] (some "default") true ≠ "default" :=
  ⟨clear_sentinel_frame_c10.1 [("default", [⟨"user", "x"⟩]), ("s1", [⟨"user", "y"⟩])] "s1" (by decide),
   clear_sentinel_frame_c10.2.1 [("default", [⟨"user", "x"⟩]), ("s1", [⟨"user", "y"⟩])],
   clear_sentinel_frame_c10.2.2.2.1 [] (some "default")⟩

end LlmMcp
